import Mathlib

/-!
Verification of the UK RAG dashboard data fetchers (`src/server/*.py`).

Numeric values are embedded as rationals (`ℚ`); Python strings that only
carry metric keys or statuses are embedded as Lean `String`, while strings
that the code scans character by character (CSV lines, spreadsheet cells)
are embedded as `List Char`.  Fallible code is embedded with `Option` and
`Except`.
-/

namespace UKRag

/-- Association-list lookup modelling a read of a Python dict literal
(`RAG_THRESHOLDS[key]` / `.get(key)`).  The threshold tables below all have
distinct keys, so this is exactly dict access. -/
def alookup {α : Type} (tbl : List (String × α)) (k : String) : Option α :=
  (tbl.find? (fun e => e.1 == k)).map (fun e => e.2)

/-- Truthiness of a Python variable holding `None` or a float: both `None`
and `0.0` are falsy.  Models checks such as `if not charge_rate:` and
`if crime_rate: break` in `crime_data_fetcher.py`. -/
def ratTruthy : Option ℚ → Bool
  | none => false
  | some v => v != 0

/-! ## Status classifiers (`calculate_rag_status` of each fetcher) -/

/-- Threshold table `RAG_THRESHOLDS` of `crime_data_fetcher.py` lines 29-55:
key, green, amber. -/
def CRIME_RAG_THRESHOLDS : List (String × ℚ × ℚ) :=
  [("recorded_crime_rate", 80, 100),
   ("charge_rate", 10, 7),
   ("perception_of_safety", 70, 55),
   ("crown_court_backlog", 40000, 60000),
   ("reoffending_rate", 25, 30)]

/-- Lower-is-better keys listed on line 63 of `crime_data_fetcher.py`. -/
def crimeLowerIsBetter : List String :=
  ["recorded_crime_rate", "crown_court_backlog", "reoffending_rate"]

/-- Higher-is-better keys listed on line 70 of `crime_data_fetcher.py`. -/
def crimeHigherIsBetter : List String :=
  ["charge_rate", "perception_of_safety"]

/-- Embedding of `calculate_rag_status` from `crime_data_fetcher.py`
lines 57-76. -/
def crimeCalcRagStatus (k : String) (v : ℚ) : String :=
  match alookup CRIME_RAG_THRESHOLDS k with
  | none => "amber"
  | some t =>
    if k ∈ crimeLowerIsBetter then
      if v ≤ t.1 then "green" else if v ≤ t.2 then "amber" else "red"
    else if k ∈ crimeHigherIsBetter then
      if v ≥ t.1 then "green" else if v ≥ t.2 then "amber" else "red"
    else "amber"

/-- Threshold table `RAG_THRESHOLDS` of `education_data_fetcher.py`
lines 15-41: key, green, amber. -/
def EDU_RAG_THRESHOLDS : List (String × ℚ × ℚ) :=
  [("attainment8", 48, 44),
   ("teacher_vacancy_rate", 1, 2),
   ("neet_rate", 3, 5),
   ("persistent_absence", 10, 15),
   ("apprentice_starts", 250000, 200000)]

/-- Embedding of `calculate_rag_status` from `education_data_fetcher.py`
lines 43-74.  Note the final branch (vacancy, NEET, absence: lower is
better) uses strict `<`, unlike the crime fetcher's `<=`. -/
def eduCalcRagStatus (k : String) (v : ℚ) : String :=
  match alookup EDU_RAG_THRESHOLDS k with
  | none => "amber"
  | some t =>
    if k = "attainment8" then
      if v ≥ t.1 then "green" else if v ≥ t.2 then "amber" else "red"
    else if k = "apprentice_starts" then
      if v ≥ t.1 then "green" else if v ≥ t.2 then "amber" else "red"
    else
      if v < t.1 then "green" else if v < t.2 then "amber" else "red"

/-- Threshold table `RAG_THRESHOLDS` of `healthcare_data_fetcher.py`
lines 20-45: key, green, amber. -/
def HEALTH_RAG_THRESHOLDS : List (String × ℚ × ℚ) :=
  [("a_e_wait_time", 95, 90),
   ("cancer_wait_time", 62, 75),
   ("ambulance_response_time", 7, 10),
   ("elective_backlog", 4000000, 6000000),
   ("gp_appt_access", 70, 55),
   ("staff_vacancy_rate", 5, 8)]

/-- Embedding of `calculate_rag_status` from `healthcare_data_fetcher.py`
lines 47-64. -/
def healthCalcRagStatus (k : String) (v : ℚ) : String :=
  match alookup HEALTH_RAG_THRESHOLDS k with
  | none => "amber"
  | some t =>
    if k ∈ ["a_e_wait_time", "gp_appt_access"] then
      if v ≥ t.1 then "green" else if v ≥ t.2 then "amber" else "red"
    else
      if v ≤ t.1 then "green" else if v ≤ t.2 then "amber" else "red"

/-- Non-banded rows of the `thresholds` dict inside `calculate_rag_status`
of `economy_data_fetcher.py` lines 426-452: key, green, amber,
`lower_is_better` flag (absent means `False`). -/
def ECON_NONBANDED_THRESHOLDS : List (String × ℚ × ℚ × Bool) :=
  [("real_gdp_growth", 2, 1, false),
   ("output_per_hour", 1, 0, false),
   ("public_sector_net_debt", 90, 100, true),
   ("business_investment", 2, 0, false)]

/-- Embedding of `ONSDataFetcher.calculate_rag_status` from
`economy_data_fetcher.py` lines 414-476.  The `cpi_inflation` policy is the
banded entry of the same dict: green_min 1.5, green_max 2.5, amber_min 1.0,
amber_max 3.5, read directly in the special-cased branch. -/
def econCalcRagStatus (k : String) (v : ℚ) : String :=
  if k = "cpi_inflation" then
    if mkRat 3 2 ≤ v ∧ v ≤ mkRat 5 2 then "green"
    else if 1 ≤ v ∧ v ≤ mkRat 7 2 then "amber"
    else "red"
  else
    match alookup ECON_NONBANDED_THRESHOLDS k with
    | none => "amber"
    | some t =>
      if t.2.2 then
        if v ≤ t.1 then "green" else if v ≤ t.2.1 then "amber" else "red"
      else
        if v ≥ t.1 then "green" else if v ≥ t.2.1 then "amber" else "red"

/-- Embedding of `_employment_rag` from `employment_data_fetcher.py`
lines 127-159. -/
def employmentRag (k : String) (v : ℚ) : String :=
  if k = "inactivity_rate" then
    if v ≤ 20 then "green" else if v ≤ 22 then "amber" else "red"
  else if k = "real_wage_growth" then
    if v ≥ 1 then "green" else if v ≥ 0 then "amber" else "red"
  else if k = "job_vacancy_ratio" then
    if v ≥ 4 then "green" else if v ≥ mkRat 5 2 then "amber" else "red"
  else if k = "underemployment" then
    if v < 6 then "green" else if v ≤ 8 then "amber" else "red"
  else if k = "sickness_absence" then
    if v < mkRat 5 2 then "green" else if v ≤ mkRat 7 2 then "amber" else "red"
  else "amber"

/-! ## Metric records and the crime fetch pipeline tails -/

/-- The uniform output record assembled by each fetcher (the `result` dict),
restricted to the fields the claims are about; `source_url` and
`last_updated` are constant plumbing omitted here. -/
structure MetricRecord where
  metricName : String
  metricKey : String
  category : String
  value : ℚ
  ragStatus : String
  timePeriod : String
  dataSource : String
  deriving Repr, DecidableEq

/-- Tail of `fetch_charge_rate_data` (`crime_data_fetcher.py`
lines 266-285): `parsed` is the value left in `charge_rate` by the two
scanning passes (`None` when nothing matched).  A falsy result is replaced
by the static fallback `7.2`; the record is then built with the fixed
`data_source` string regardless of provenance. -/
def chargeRateRecord (parsed : Option ℚ) (period : String) : MetricRecord :=
  let v : ℚ := if ratTruthy parsed then parsed.getD 0 else mkRat 72 10
  { metricName := "Charge Rate"
    metricKey := "charge_rate"
    category := "Crime"
    value := v
    ragStatus := crimeCalcRagStatus ("charge_rate") v
    timePeriod := period
    dataSource := "Gov.uk: Crime Outcomes" }

/-- Tail of `fetch_recorded_crime_data` (`crime_data_fetcher.py`
lines 152-184): a falsy scan result is replaced by the fallback estimate
`89.5`; the record carries the fixed `data_source` string either way. -/
def recordedCrimeRecord (parsed : Option ℚ) (period : String) : MetricRecord :=
  let v : ℚ := if ratTruthy parsed then parsed.getD 0 else mkRat 179 2
  { metricName := "Total Recorded Crime"
    metricKey := "recorded_crime_rate"
    category := "Crime"
    value := v
    ragStatus := crimeCalcRagStatus ("recorded_crime_rate") v
    timePeriod := period
    dataSource := "ONS: Crime in England & Wales" }

/-- Outcome of one per-metric fetch function: the function body either
raises (modelled as `Except.error`) or returns `Some record` / `None`.
Every crime fetcher wraps its body in `try ... except Exception: return
None` (for example `crime_data_fetcher.py` lines 193-195), embedded here as
the error case mapping to `none`. -/
def tryFetch (r : Except String (Option MetricRecord)) : Option MetricRecord :=
  match r with
  | .error _ => none
  | .ok v => v

/-- One `if result: metrics.append(result)` step of `main`
(`crime_data_fetcher.py` lines 474-497). -/
def appendIfSome (m : List MetricRecord) (o : Option MetricRecord) : List MetricRecord :=
  match o with
  | some r => m ++ [r]
  | none => m

/-- Embedding of `main` from `crime_data_fetcher.py` lines 466-497: the
five per-metric fetches run in sequence, each wrapped in its own
`try`/`except`, and only non-`None` results are appended. -/
def crimeMain (recordedCrime chargeRate perception crownBacklog reoffending :
    Except String (Option MetricRecord)) : List MetricRecord :=
  let m1 := appendIfSome [] (tryFetch recordedCrime)
  let m2 := appendIfSome m1 (tryFetch chargeRate)
  let m3 := appendIfSome m2 (tryFetch perception)
  let m4 := appendIfSome m3 (tryFetch crownBacklog)
  let m5 := appendIfSome m4 (tryFetch reoffending)
  m5

/-! ## Character-level string model

Python strings that the fetchers scan character by character are embedded
as lists of characters. -/

abbrev PStr := List Char

/-- Coerce a Lean string literal to the character-list model. -/
def pstr (s : String) : PStr := s.data

/-- Nonempty all-digit test, modelling Python `str.isdigit` on ASCII. -/
def isDigits (s : PStr) : Bool := !s.isEmpty && s.all Char.isDigit

/-- Numeric value of a digit string, modelling Python `int(s)` on digit
strings. -/
def natOfDigits (s : PStr) : Nat := s.foldl (fun a c => 10 * a + (c.toNat - 48)) 0

/-- The ASCII digit character for `n < 10`. -/
def digitChar (n : Nat) : Char := Char.ofNat (48 + n)

/-- Decimal digit string of a natural number, most significant digit
first, modelling Python `str(n)` for `n ≥ 0`. -/
def natToDigits (n : Nat) : PStr :=
  if _h : n < 10 then [digitChar n]
  else natToDigits (n / 10) ++ [digitChar (n % 10)]
decreasing_by exact Nat.div_lt_self (by omega) (by omega)

/-- Decimal rendering of a Python `int`, modelling `str(i)` / f-string
interpolation (negative numbers get a leading minus sign). -/
def intRepr (i : ℤ) : PStr :=
  if i < 0 then '-' :: natToDigits i.natAbs else natToDigits i.toNat

/-- Strip leading and trailing whitespace, modelling `str.strip()`. -/
def stripWs (s : PStr) : PStr :=
  ((s.dropWhile Char.isWhitespace).reverse.dropWhile Char.isWhitespace).reverse

/-- Strip leading and trailing copies of one character, modelling
`str.strip('"')`. -/
def stripCh (ch : Char) (s : PStr) : PStr :=
  ((s.dropWhile (· == ch)).reverse.dropWhile (· == ch)).reverse

/-- Lower-case every character, modelling `str.lower()`. -/
def toLower (s : PStr) : PStr := s.map Char.toLower

/-- Delete every copy of one character, modelling `str.replace(c, '')`. -/
def removeAll (ch : Char) (s : PStr) : PStr := s.filter (· != ch)

/-- Test whether the first character is `c`, modelling
`str.startswith(c)` for a one-character pattern. -/
def startsWithCh (c : Char) : PStr → Bool
  | [] => false
  | x :: _ => x == c

/-- Test whether `pat` occurs at the front of `s`. -/
def frontMatches : PStr → PStr → Bool
  | [], _ => true
  | _ :: _, [] => false
  | a :: as, b :: bs => a == b && frontMatches as bs

/-- Substring test, modelling Python `pat in s`. -/
def containsSeq (pat : PStr) : PStr → Bool
  | [] => frontMatches pat []
  | c :: rest => frontMatches pat (c :: rest) || containsSeq pat rest

/-- Worker for `splitOnSeq`: scan left to right, cutting at each
non-overlapping occurrence of the separator `c0 :: sepRest`.  The `Nat`
argument is a character budget making the recursion structural; every
step consumes at least one character, so a budget of the string's length
never runs out. -/
def splitGo (c0 : Char) (sepRest : PStr) : Nat → PStr → PStr → List PStr
  | _, [], cur => [cur.reverse]
  | 0, c :: rest, cur => [cur.reverse ++ c :: rest]
  | fuel + 1, c :: rest, cur =>
    if frontMatches (c0 :: sepRest) (c :: rest) then
      cur.reverse :: splitGo c0 sepRest fuel (rest.drop sepRest.length) []
    else
      splitGo c0 sepRest fuel rest (c :: cur)

/-- Split on a nonempty separator, modelling Python `s.split(sep)`.  The
fetchers only ever call it with the nonempty separators `'","'` and
`' Q'`. -/
def splitOnSeq (sep : PStr) (s : PStr) : List PStr :=
  match sep with
  | [] => [s]
  | c0 :: sepRest => splitGo c0 sepRest s.length s []

/-- Worker for `wsSplit`, carrying the current chunk reversed. -/
def wsSplitGo : PStr → PStr → List PStr
  | [], cur => if cur.isEmpty then [] else [cur.reverse]
  | c :: rest, cur =>
    if c.isWhitespace then
      if cur.isEmpty then wsSplitGo rest [] else cur.reverse :: wsSplitGo rest []
    else wsSplitGo rest (c :: cur)

/-- Split on whitespace runs discarding empty chunks, modelling Python
`str.split()` with no argument. -/
def wsSplit (s : PStr) : List PStr := wsSplitGo s []

/-- Unsigned part of a Python decimal literal: digits with at most one
decimal point and at least one digit overall.  The value
`intpart.fracpart` is the exact rational with denominator `10 ^ |frac|`,
built with `mkRat` in one step. -/
def parseUnsigned (s : PStr) : Option ℚ :=
  let intPart := s.takeWhile Char.isDigit
  match s.dropWhile Char.isDigit with
  | [] => if intPart.isEmpty then none else some (mkRat (natOfDigits intPart) 1)
  | '.' :: frac =>
    if frac.all Char.isDigit && !(intPart.isEmpty && frac.isEmpty) then
      some (mkRat (natOfDigits intPart * 10 ^ frac.length + natOfDigits frac) (10 ^ frac.length))
    else none
  | _ => none

/-- Embedding of Python `float(s)` on the decimal literals the fetchers
meet: optional surrounding whitespace, optional sign, digits with at most
one decimal point.  Any other content fails to parse, exactly as the
scanning code treats a `ValueError` from `float`. -/
def parseRat (s : PStr) : Option ℚ :=
  match stripWs s with
  | '-' :: rest => (parseUnsigned rest).map (fun q => -q)
  | '+' :: rest => parseUnsigned rest
  | rest => parseUnsigned rest

/-! ## Narrow-CSV series extraction -/

/-- The separator `'","'` used to split ONS generator CSV lines. -/
def qcq : PStr := ['"', ',', '"']

/-- Data-start test of `fetch_csv_series` (`economy_data_fetcher.py`
lines 277-283): the line starts with a quote, splits into exactly two
fields on `'","'`, and its first field (once quotes are stripped) is all
digits, contains a `Q`, or contains a dash. -/
def econDataStartLine (line : PStr) : Bool :=
  startsWithCh '"' line &&
    match splitOnSeq qcq line with
    | [f, _] =>
      let ff := stripCh '"' f
      isDigits ff || containsSeq ['Q'] ff || containsSeq ['-'] ff
    | _ => false

/-- Per-line data-row parse of `fetch_csv_series` (`economy_data_fetcher.py`
lines 291-300): skip blank lines, strip surrounding quotes, split into
exactly two fields, and keep the pair when the value field parses as a
float. -/
def econParseRow (line : PStr) : Option (PStr × ℚ) :=
  if (stripWs line).isEmpty then none
  else
    match splitOnSeq qcq (stripCh '"' line) with
    | [d, v] => (parseRat v).map (fun x => (d, x))
    | _ => none

/-- Embedding of the narrow-CSV core of `ONSDataFetcher.fetch_csv_series`
(`economy_data_fetcher.py` lines 270-304): find `data_start` by scanning
lines top-down, parse every later line, and return `none` when no data
start or no valid data row was found.  `lines` is
`response.text.strip().split('\n')`. -/
def econExtract (lines : List PStr) : Option (List (PStr × ℚ)) :=
  let dataStart := (lines.findIdx? econDataStartLine).getD 0
  if dataStart = 0 then none
  else
    let dataRows := (lines.drop dataStart).filterMap econParseRow
    if dataRows.isEmpty then none else some dataRows

/-- Latest-mode selection of `fetch_csv_series` (`economy_data_fetcher.py`
line 334): `latest = data_rows[-1]`. -/
def econLatest (lines : List PStr) : Option (PStr × ℚ) :=
  (econExtract lines).bind List.getLast?

/-- Data-start test of `_parse_ons_csv` (`employment_data_fetcher.py`
lines 71-81): like the economy test but the first field is also stripped
of whitespace, the quarter test wants `' Q'`, and a two-word field whose
first word is a 4-digit number (a `"2001 MAR"` month row) also counts. -/
def empDataStartLine (line : PStr) : Bool :=
  startsWithCh '"' line &&
    match splitOnSeq qcq line with
    | [f, _] =>
      let ff := stripWs (stripCh '"' f)
      isDigits ff || containsSeq [' ', 'Q'] ff || containsSeq ['-'] ff ||
        (match wsSplit ff with
         | p0 :: _ :: _ => isDigits p0 && p0.length = 4
         | _ => false)
    | _ => false

/-- Per-line data-row parse of `_parse_ons_csv` (`employment_data_fetcher.py`
lines 85-93); also used verbatim by `population_data_fetcher.py`
lines 76-85.  The period field is additionally whitespace-stripped. -/
def empParseRow (line : PStr) : Option (PStr × ℚ) :=
  if (stripWs line).isEmpty then none
  else
    match splitOnSeq qcq (stripCh '"' line) with
    | [d, v] => (parseRat v).map (fun x => (stripWs d, x))
    | _ => none

/-- Embedding of `_parse_ons_csv` from `employment_data_fetcher.py`
lines 67-94. -/
def empParseOnsCsv (lines : List PStr) : List (PStr × ℚ) :=
  let dataStart := (lines.findIdx? empDataStartLine).getD 0
  if dataStart = 0 then []
  else (lines.drop dataStart).filterMap empParseRow

/-- Latest-point selection of `_fetch_ons_series`
(`employment_data_fetcher.py` line 108): `latest = rows[-1]`. -/
def empLatest (lines : List PStr) : Option (PStr × ℚ) :=
  (empParseOnsCsv lines).getLast?

/-- Data-start test of `_parse_ons_csv` from `population_data_fetcher.py`
lines 66-74: digits, `' Q'`, or a dash in the stripped first field. -/
def popDataStartLine (line : PStr) : Bool :=
  startsWithCh '"' line &&
    match splitOnSeq qcq line with
    | [f, _] =>
      let ff := stripWs (stripCh '"' f)
      isDigits ff || containsSeq [' ', 'Q'] ff || containsSeq ['-'] ff
    | _ => false

/-- Embedding of `_parse_ons_csv` from `population_data_fetcher.py`
lines 63-87 (same row parsing as the employment fetcher). -/
def popParseOnsCsv (lines : List PStr) : List (PStr × ℚ) :=
  let dataStart := (lines.findIdx? popDataStartLine).getD 0
  if dataStart = 0 then []
  else (lines.drop dataStart).filterMap empParseRow

/-! ## Cell-Pattern Matcher (recorded-crime instance) -/

/-- One spreadsheet cell: `none` models a pandas `NaN`, `some s` the text
rendering `str(cell)` of a non-null cell. -/
abbrev Cell := Option PStr

/-- The joined row text `' '.join(str(cell) for cell in row if notna)`. -/
def joinSpace : List PStr → PStr
  | [] => []
  | [s] => s
  | s :: rest => s ++ ' ' :: joinSpace rest

/-- Case-folded concatenated text of a grid row (`crime_data_fetcher.py`
line 134). -/
def rowText (row : List Cell) : PStr :=
  toLower (joinSpace (row.filterMap id))

/-- Keyword condition of `fetch_recorded_crime_data` line 137: the row
text contains `'england'`, or both `'total'` and `'crime'`. -/
def crimeRowMatches (row : List Cell) : Bool :=
  let s := rowText row
  containsSeq (pstr ("england")) s ||
    (containsSeq (pstr ("total")) s && containsSeq (pstr ("crime")) s)

/-- Cell test of `fetch_recorded_crime_data` lines 139-148: a non-null
cell whose text, with commas removed, parses as a float inside
`[lo, hi]`.  This call site strips only commas, not percent signs. -/
def crimeScanCell (lo hi : ℚ) (c : Cell) : Option ℚ :=
  match c with
  | none => none
  | some s =>
    match parseRat (removeAll ',' s) with
    | some v => if lo ≤ v ∧ v ≤ hi then some v else none
    | none => none

/-- First in-range numeric cell of a row. -/
def crimeScanRow (lo hi : ℚ) (row : List Cell) : Option ℚ :=
  row.findSome? (crimeScanCell lo hi)

/-- Row loop of `fetch_recorded_crime_data` lines 133-150, with the
Python truthiness of `if crime_rate: break`: a scanned value of `0.0`
does not stop the scan and may be overwritten by a later matching row. -/
def findScalarGo (lo hi : ℚ) : List (List Cell) → Option ℚ → Option ℚ
  | [], st => st
  | row :: rest, st =>
    if crimeRowMatches row then
      let st' := match crimeScanRow lo hi row with
        | some v => some v
        | none => st
      if ratTruthy st' then st' else findScalarGo lo hi rest st'
    else findScalarGo lo hi rest st

/-- The Cell-Pattern Matcher instance of `fetch_recorded_crime_data`:
scan rows top to bottom for a keyword-matching row holding an in-range
numeric cell; `none` when the scan finds nothing. -/
def findScalar (grid : List (List Cell)) (lo hi : ℚ) : Option ℚ :=
  findScalarGo lo hi grid none

/-! ## Derived-Series Transformer (year-over-year change) -/

/-- Banker's rounding to the nearest integer, ties to the even integer,
as Python `round` behaves on the exact value. -/
def roundHalfEven (x : ℚ) : ℤ :=
  let f := Int.floor x
  let r := x - (f : ℚ)
  if r < 1/2 then f
  else if 1/2 < r then f + 1
  else if f % 2 = 0 then f else f + 1

/-- Embedding of Python `round(x, 2)` on the exact rational value. -/
def roundTo2 (x : ℚ) : ℚ :=
  (roundHalfEven (x * 100) : ℚ) / 100

/-- Prior-period key computed inside `_compute_yoy_pct_change`
(`economy_data_fetcher.py` lines 371-379): a `'YYYY Qn'` period maps to
the same quarter one year earlier, a bare digit string to the previous
year, and any other shape has no resolvable prior. -/
def priorKey (p : PStr) : Option PStr :=
  if containsSeq (pstr (" Q")) p then
    match splitOnSeq (pstr (" Q")) p with
    | [a, b] =>
      if isDigits a && isDigits b then
        some (intRepr ((natOfDigits a : ℤ) - 1) ++ ' ' :: 'Q' :: intRepr ((natOfDigits b : ℤ)))
      else none
    | _ => none
  else if isDigits p then some (intRepr ((natOfDigits p : ℤ) - 1))
  else none

/-- Last-binding-wins lookup, modelling reads of the dict `by_period`
built by repeated assignment in `_compute_yoy_pct_change`. -/
def dlookup (rows : List (PStr × ℚ)) (p : PStr) : Option ℚ :=
  (rows.reverse.find? (fun r => r.1 == p)).map (fun r => r.2)

/-- One iteration of the loop over sorted periods in
`_compute_yoy_pct_change` (`economy_data_fetcher.py` lines 370-382): when
the period's prior key resolves to a non-zero dict entry, emit
`round(((cur - prev) / prev) * 100, 2)`. -/
def yoyStep (stripped : List (PStr × ℚ)) (p : PStr) : Option (PStr × ℚ) :=
  match priorKey p with
  | none => none
  | some pk =>
    match dlookup stripped p with
    | none => none
    | some cur =>
      match dlookup stripped pk with
      | none => none
      | some prev =>
        if prev ≠ 0 then some (p, roundTo2 ((cur - prev) / prev * 100)) else none

/-- Embedding of `_compute_yoy_pct_change` from `economy_data_fetcher.py`
lines 360-383: strip each period, key the rows into a dict, iterate the
keys in sorted order, and emit the rounded year-over-year change for each
period whose prior key resolves to a non-zero value. -/
def computeYoyPctChange (rows : List (PStr × ℚ)) : List (PStr × ℚ) :=
  let stripped := rows.map (fun r => (stripWs r.1, r.2))
  let keys := List.insertionSort (fun a b => a ≤ b) (stripped.map (fun r => r.1)).dedup
  keys.filterMap (yoyStep stripped)

/-- A sample record used to exercise the batch-isolation property of
`main` in `crime_data_fetcher.py`. -/
def sampleRecord : MetricRecord :=
  { metricName := "Total Recorded Crime"
    metricKey := "recorded_crime_rate"
    category := "Crime"
    value := mkRat 179 2
    ragStatus := "amber"
    timePeriod := "2024 Q1"
    dataSource := "ONS: Crime in England & Wales" }

/-! ## General helper lemmas -/

/-- A key absent from a threshold table makes the dict lookup fail. -/
theorem alookup_eq_none {α : Type} (tbl : List (String × α)) (k : String)
    (hk : k ∉ tbl.map (fun e => e.1)) : alookup tbl k = none := by
  have h : tbl.find? (fun e => e.1 == k) = none :=
    List.find?_eq_none.mpr (fun x hx hbeq =>
      hk (List.mem_map.mpr ⟨x, hx, by simpa using hbeq⟩))
  unfold alookup
  rw [h]
  rfl

/-- Appending preserves membership in the batch accumulator. -/
theorem mem_appendIfSome_of_mem {m : List MetricRecord} {o : Option MetricRecord}
    {r : MetricRecord} (h : r ∈ m) : r ∈ appendIfSome m o := by
  cases o <;> simp [appendIfSome, h]

/-- A successfully fetched record is appended to the batch accumulator. -/
theorem mem_appendIfSome_self {m : List MetricRecord} {r : MetricRecord} :
    r ∈ appendIfSome m (some r) := by
  simp [appendIfSome]

/-! ## Claim theorems -/

/-- C1, counterexample: the claim asserts that for every descending
(lower-is-better) policy `p`, `classify(p, p.green) = green`.  The
education classifier's lower-is-better branch uses strict `<`, so the
`teacher_vacancy_rate` policy (green 1.0) classifies a value exactly at
its green threshold as amber, not green. -/
theorem c1_counterexample :
    eduCalcRagStatus ("teacher_vacancy_rate") 1 = "amber" ∧
    eduCalcRagStatus ("teacher_vacancy_rate") 1 ≠ "green" := by
  decide

/-- C1, amended: boundary comparisons are inclusive on both sides for
every registered key of the crime, healthcare and economy classifiers and
for the ascending education policies, but the education lower-is-better
policies and the employment `underemployment` / `sickness_absence` green
bounds use strict comparisons, so a value exactly at those boundaries
resolves to the worse of the two adjoining bands. -/
theorem c1_boundary_amended :
    crimeCalcRagStatus ("recorded_crime_rate") 80 = "green" ∧
    crimeCalcRagStatus ("recorded_crime_rate") 100 = "amber" ∧
    crimeCalcRagStatus ("crown_court_backlog") 40000 = "green" ∧
    crimeCalcRagStatus ("crown_court_backlog") 60000 = "amber" ∧
    crimeCalcRagStatus ("reoffending_rate") 25 = "green" ∧
    crimeCalcRagStatus ("reoffending_rate") 30 = "amber" ∧
    crimeCalcRagStatus ("charge_rate") 10 = "green" ∧
    crimeCalcRagStatus ("charge_rate") 7 = "amber" ∧
    crimeCalcRagStatus ("perception_of_safety") 70 = "green" ∧
    crimeCalcRagStatus ("perception_of_safety") 55 = "amber" ∧
    eduCalcRagStatus ("attainment8") 48 = "green" ∧
    eduCalcRagStatus ("attainment8") 44 = "amber" ∧
    eduCalcRagStatus ("apprentice_starts") 250000 = "green" ∧
    eduCalcRagStatus ("apprentice_starts") 200000 = "amber" ∧
    eduCalcRagStatus ("teacher_vacancy_rate") 1 = "amber" ∧
    eduCalcRagStatus ("teacher_vacancy_rate") 2 = "red" ∧
    eduCalcRagStatus ("neet_rate") 3 = "amber" ∧
    eduCalcRagStatus ("neet_rate") 5 = "red" ∧
    eduCalcRagStatus ("persistent_absence") 10 = "amber" ∧
    eduCalcRagStatus ("persistent_absence") 15 = "red" ∧
    healthCalcRagStatus ("a_e_wait_time") 95 = "green" ∧
    healthCalcRagStatus ("a_e_wait_time") 90 = "amber" ∧
    healthCalcRagStatus ("gp_appt_access") 70 = "green" ∧
    healthCalcRagStatus ("gp_appt_access") 55 = "amber" ∧
    healthCalcRagStatus ("cancer_wait_time") 62 = "green" ∧
    healthCalcRagStatus ("cancer_wait_time") 75 = "amber" ∧
    healthCalcRagStatus ("ambulance_response_time") 7 = "green" ∧
    healthCalcRagStatus ("ambulance_response_time") 10 = "amber" ∧
    healthCalcRagStatus ("elective_backlog") 4000000 = "green" ∧
    healthCalcRagStatus ("elective_backlog") 6000000 = "amber" ∧
    healthCalcRagStatus ("staff_vacancy_rate") 5 = "green" ∧
    healthCalcRagStatus ("staff_vacancy_rate") 8 = "amber" ∧
    econCalcRagStatus ("real_gdp_growth") 2 = "green" ∧
    econCalcRagStatus ("real_gdp_growth") 1 = "amber" ∧
    econCalcRagStatus ("output_per_hour") 1 = "green" ∧
    econCalcRagStatus ("output_per_hour") 0 = "amber" ∧
    econCalcRagStatus ("public_sector_net_debt") 90 = "green" ∧
    econCalcRagStatus ("public_sector_net_debt") 100 = "amber" ∧
    econCalcRagStatus ("business_investment") 2 = "green" ∧
    econCalcRagStatus ("business_investment") 0 = "amber" ∧
    econCalcRagStatus ("cpi_inflation") (mkRat 3 2) = "green" ∧
    econCalcRagStatus ("cpi_inflation") (mkRat 5 2) = "green" ∧
    econCalcRagStatus ("cpi_inflation") 1 = "amber" ∧
    econCalcRagStatus ("cpi_inflation") (mkRat 7 2) = "amber" ∧
    employmentRag ("inactivity_rate") 20 = "green" ∧
    employmentRag ("inactivity_rate") 22 = "amber" ∧
    employmentRag ("real_wage_growth") 1 = "green" ∧
    employmentRag ("real_wage_growth") 0 = "amber" ∧
    employmentRag ("job_vacancy_ratio") 4 = "green" ∧
    employmentRag ("job_vacancy_ratio") (mkRat 5 2) = "amber" ∧
    employmentRag ("underemployment") 6 = "amber" ∧
    employmentRag ("underemployment") 8 = "amber" ∧
    employmentRag ("sickness_absence") (mkRat 5 2) = "amber" ∧
    employmentRag ("sickness_absence") (mkRat 7 2) = "amber" := by
  decide

/-- C2, counterexample: the claim asserts the fallback record's
`data_source` is distinguishable from the live-parse string.  In
`fetch_charge_rate_data` the fallback record (value 7.2) carries exactly
the same `data_source` string as a live-parsed record. -/
theorem c2_counterexample :
    (chargeRateRecord none ("2025 Q1")).value = mkRat 72 10 ∧
    (chargeRateRecord none ("2025 Q1")).dataSource =
      (chargeRateRecord (some 9) ("2025 Q1")).dataSource := by
  decide

/-- C2, amended: when extraction fails the configured fallback value is
substituted (7.2 for charge_rate, 89.5 for recorded_crime_rate), but the
emitted record's `data_source` is the identical constant string used for
live-parsed records, so provenance is not inspectable from the record
itself (only a console message distinguishes the fallback path). -/
theorem c2_provenance_amended (v : ℚ) (p : String) :
    (chargeRateRecord none p).value = mkRat 72 10 ∧
    (chargeRateRecord none p).dataSource = "Gov.uk: Crime Outcomes" ∧
    (chargeRateRecord (some v) p).dataSource = "Gov.uk: Crime Outcomes" ∧
    (recordedCrimeRecord none p).value = mkRat 179 2 ∧
    (recordedCrimeRecord none p).dataSource = "ONS: Crime in England & Wales" ∧
    (recordedCrimeRecord (some v) p).dataSource = "ONS: Crime in England & Wales" := by
  exact ⟨rfl, rfl, rfl, rfl, rfl, rfl⟩

/-- C7: the banded cpi_inflation policy (green 1.5-2.5, amber 1.0-3.5) is
inclusive on all four boundaries and red outside the amber band. -/
theorem c7_banded_policy :
    econCalcRagStatus ("cpi_inflation") (mkRat 3 2) = "green" ∧
    econCalcRagStatus ("cpi_inflation") (mkRat 5 2) = "green" ∧
    econCalcRagStatus ("cpi_inflation") 1 = "amber" ∧
    econCalcRagStatus ("cpi_inflation") (mkRat 7 2) = "amber" ∧
    econCalcRagStatus ("cpi_inflation") (mkRat 9 10) = "red" ∧
    econCalcRagStatus ("cpi_inflation") (mkRat 18 5) = "red" := by
  decide

/-- C9: classifying any value under a metric key with no registered
threshold policy returns amber in every category's classifier. -/
theorem c9_unknown_key_amber (k : String) (v : ℚ) :
    (k ∉ CRIME_RAG_THRESHOLDS.map (fun e => e.1) → crimeCalcRagStatus k v = "amber") ∧
    (k ∉ EDU_RAG_THRESHOLDS.map (fun e => e.1) → eduCalcRagStatus k v = "amber") ∧
    (k ∉ HEALTH_RAG_THRESHOLDS.map (fun e => e.1) → healthCalcRagStatus k v = "amber") ∧
    (k ≠ "cpi_inflation" → k ∉ ECON_NONBANDED_THRESHOLDS.map (fun e => e.1) →
      econCalcRagStatus k v = "amber") ∧
    (k ∉ ["inactivity_rate", "real_wage_growth", "job_vacancy_ratio",
        "underemployment", "sickness_absence"] → employmentRag k v = "amber") := by
  refine ⟨fun h => ?_, fun h => ?_, fun h => ?_, fun hne h => ?_, fun h => ?_⟩
  · simp only [crimeCalcRagStatus, alookup_eq_none _ _ h]
  · simp only [eduCalcRagStatus, alookup_eq_none _ _ h]
  · simp only [healthCalcRagStatus, alookup_eq_none _ _ h]
  · simp only [econCalcRagStatus, if_neg hne, alookup_eq_none _ _ h]
  · have h1 : k ≠ "inactivity_rate" := fun e => h (by rw [e]; decide)
    have h2 : k ≠ "real_wage_growth" := fun e => h (by rw [e]; decide)
    have h3 : k ≠ "job_vacancy_ratio" := fun e => h (by rw [e]; decide)
    have h4 : k ≠ "underemployment" := fun e => h (by rw [e]; decide)
    have h5 : k ≠ "sickness_absence" := fun e => h (by rw [e]; decide)
    simp only [employmentRag, if_neg h1, if_neg h2, if_neg h3, if_neg h4, if_neg h5]

/-- C9, witness: a concrete unregistered key classifies as amber in all
five classifiers. -/
theorem c9_unknown_key_amber_witness :
    crimeCalcRagStatus ("armed_forces_strength") 5 = "amber" ∧
    eduCalcRagStatus ("armed_forces_strength") 5 = "amber" ∧
    healthCalcRagStatus ("armed_forces_strength") 5 = "amber" ∧
    econCalcRagStatus ("armed_forces_strength") 5 = "amber" ∧
    employmentRag ("armed_forces_strength") 5 = "amber" := by
  have h := c9_unknown_key_amber ("armed_forces_strength") 5
  exact ⟨h.1 (by decide), h.2.1 (by decide), h.2.2.1 (by decide),
    h.2.2.2.1 (by decide) (by decide), h.2.2.2.2 (by decide)⟩

/-- C8: the per-metric `try`/`except` wrapper maps an internal error to
`None` instead of propagating it, and `main` appends every non-`None`
sibling record, so one metric's failure never removes sibling records
from the batch output. -/
theorem c8_batch_isolation (a b c d e : Except String (Option MetricRecord))
    (r : MetricRecord) :
    (∀ s, tryFetch (Except.error s) = none) ∧
    ((a = Except.ok (some r) ∨ b = Except.ok (some r) ∨ c = Except.ok (some r) ∨
        d = Except.ok (some r) ∨ e = Except.ok (some r)) →
      r ∈ crimeMain a b c d e) := by
  refine ⟨fun _ => rfl, fun h => ?_⟩
  unfold crimeMain
  rcases h with h | h | h | h | h <;> subst h <;>
    repeat
      first
        | exact mem_appendIfSome_self
        | apply mem_appendIfSome_of_mem

/-- C8, witness: with the second and fourth pipelines raising, the record
fetched by the first pipeline still appears in the batch. -/
theorem c8_batch_isolation_witness :
    sampleRecord ∈ crimeMain (Except.ok (some sampleRecord)) (Except.error ("boom"))
      (Except.ok none) (Except.error ("bust")) (Except.ok none) :=
  (c8_batch_isolation _ _ _ _ _ sampleRecord).2 (Or.inl rfl)

/-- C10: all three narrow-CSV parsers use `data_start = 0` as the
not-found sentinel, so an input whose very first line is itself a valid
data row yields an empty result even though every line is well-formed. -/
theorem c10_data_start_sentinel :
    (∀ l ls, empDataStartLine l = true → empParseOnsCsv (l :: ls) = []) ∧
    (∀ l ls, popDataStartLine l = true → popParseOnsCsv (l :: ls) = []) ∧
    (∀ l ls, econDataStartLine l = true → econExtract (l :: ls) = none) := by
  refine ⟨fun l ls h => ?_, fun l ls h => ?_, fun l ls h => ?_⟩
  · simp [empParseOnsCsv, List.findIdx?_cons, h]
  · simp [popParseOnsCsv, List.findIdx?_cons, h]
  · simp [econExtract, List.findIdx?_cons, h]

/-- C10, witness: an input made entirely of well-formed data rows (the
first line included) extracts nothing in all three parsers. -/
theorem c10_data_start_sentinel_witness :
    empParseOnsCsv [pstr ("\"2024\",\"89.5\""), pstr ("\"2025\",\"91.2\"")] = [] ∧
    popParseOnsCsv [pstr ("\"2024\",\"89.5\""), pstr ("\"2025\",\"91.2\"")] = [] ∧
    econExtract [pstr ("\"2024\",\"89.5\""), pstr ("\"2025\",\"91.2\"")] = none :=
  ⟨c10_data_start_sentinel.1 _ _ (by decide),
   c10_data_start_sentinel.2.1 _ _ (by decide),
   c10_data_start_sentinel.2.2 _ _ (by decide)⟩

/-! ## Cell-Pattern Matcher lemmas -/

/-- An accepted cell value lies inside the plausibility range. -/
theorem crimeScanCell_bounds {lo hi v : ℚ} {c : Cell}
    (h : crimeScanCell lo hi c = some v) : lo ≤ v ∧ v ≤ hi := by
  cases c with
  | none => simp [crimeScanCell] at h
  | some s =>
    simp only [crimeScanCell] at h
    cases hp : parseRat (removeAll ',' s) with
    | none => rw [hp] at h; simp at h
    | some w =>
      rw [hp] at h
      simp only at h
      by_cases hb : lo ≤ w ∧ w ≤ hi
      · rw [if_pos hb] at h
        simp only [Option.some.injEq] at h
        exact h ▸ hb
      · rw [if_neg hb] at h; simp at h

/-- An accepted row value lies inside the plausibility range. -/
theorem crimeScanRow_bounds {lo hi v : ℚ} {row : List Cell}
    (h : crimeScanRow lo hi row = some v) : lo ≤ v ∧ v ≤ hi := by
  obtain ⟨c, _, hc⟩ := List.exists_of_findSome?_eq_some h
  exact crimeScanCell_bounds hc

/-- When the plausibility range excludes zero, the stateful row loop of
`fetch_recorded_crime_data` computes the first-match semantics: the first
keyword-matching row holding an in-range cell wins. -/
theorem findScalarGo_spec (lo hi : ℚ) (hz : ¬(lo ≤ 0 ∧ 0 ≤ hi)) (grid : List (List Cell)) :
    findScalarGo lo hi grid none =
      grid.findSome? (fun row => if crimeRowMatches row then crimeScanRow lo hi row else none) := by
  induction grid with
  | nil => rfl
  | cons row rest ih =>
    rw [List.findSome?_cons]
    by_cases hm : crimeRowMatches row
    · cases hs : crimeScanRow lo hi row with
      | none => simp [findScalarGo, hm, hs, ratTruthy, ih]
      | some v =>
        have hb := crimeScanRow_bounds hs
        have hv : v ≠ 0 := fun h0 => hz ⟨h0 ▸ hb.1, h0 ▸ hb.2⟩
        simp [findScalarGo, hm, hs, ratTruthy, hv]
    · simp only [Bool.not_eq_true] at hm
      simp [findScalarGo, hm, ih]

/-- C5, counterexample: the claim says a cell is accepted when it parses
numerically after stripping both `%` and `,`.  The recorded-crime scanner
strips only commas, so the cell `'89.5%'` — which would parse to the
in-range value 89.5 under percent-stripping — is rejected and the matcher
yields nothing. -/
theorem c5_counterexample :
    findScalar [[some (pstr ("England")), some (pstr ("89.5%"))]] 50 150 = none ∧
    parseRat (removeAll '%' (removeAll ',' (pstr ("89.5%")))) = some (mkRat 179 2) ∧
    (50 : ℚ) ≤ mkRat 179 2 ∧ mkRat 179 2 ≤ 150 := by
  refine ⟨by decide, by decide, by decide, by decide⟩

/-- C5, amended: the recorded-crime Cell-Pattern Matcher scans rows top to
bottom and, provided the plausibility range excludes zero (all configured
ranges do), returns the first cell of the first keyword-matching row that
parses numerically after stripping commas only (this call site does not
strip `%`) and falls inside the range, and `none` when no keyword-matching
row holds such a cell; on the spec's example grid it returns 89.5 for
range (50, 150) and nothing for range (200, 300). -/
theorem c5_matcher_amended (grid : List (List Cell)) (lo hi : ℚ)
    (hz : ¬(lo ≤ 0 ∧ 0 ≤ hi)) :
    findScalar grid lo hi =
      grid.findSome? (fun row => if crimeRowMatches row then crimeScanRow lo hi row else none) ∧
    findScalar [[some (pstr ("England")), some (pstr ("Total crime")), some (pstr ("89.5"))]]
      50 150 = some (mkRat 179 2) ∧
    findScalar [[some (pstr ("England")), some (pstr ("Total crime")), some (pstr ("89.5"))]]
      200 300 = none :=
  ⟨findScalarGo_spec lo hi hz grid, by decide, by decide⟩

/-- C5, witness: the amended matcher theorem applied to the spec's example
grid with the configured crime-rate range (50, 150). -/
theorem c5_matcher_amended_witness :
    findScalar [[some (pstr ("England")), some (pstr ("Total crime")), some (pstr ("89.5"))]]
        50 150 =
      ([[some (pstr ("England")), some (pstr ("Total crime")), some (pstr ("89.5"))]]).findSome?
        (fun row => if crimeRowMatches row then crimeScanRow 50 150 row else none) ∧
    findScalar [[some (pstr ("England")), some (pstr ("Total crime")), some (pstr ("89.5"))]]
      50 150 = some (mkRat 179 2) :=
  ⟨(c5_matcher_amended _ 50 150 (by decide)).1,
   (c5_matcher_amended [] 50 150 (by decide)).2.1⟩

/-! ## Series-extractor lemmas -/

/-- The kept results of a `filterMap`, in output order, form a subsequence
of the per-element results in source order: extraction preserves the
encounter order of the source rows. -/
theorem filterMap_map_sublist {α β : Type} (f : α → Option β) (l : List α) :
    ((l.filterMap f).map some).Sublist (l.map f) := by
  induction l with
  | nil => simp
  | cons a t ih =>
    cases h : f a with
    | none => simpa [List.filterMap_cons, h] using ih.cons (f a)
    | some b =>
      rw [List.filterMap_cons, h, List.map_cons, List.map_cons, h]
      exact ih.cons₂ (some b)

/-- Destructuring a successful narrow-CSV extraction: there is a positive
`data_start` index and the rows are the parses of everything after it. -/
theorem econExtract_eq_some {lines : List PStr} {rows : List (PStr × ℚ)}
    (h : econExtract lines = some rows) :
    ∃ ds, lines.findIdx? econDataStartLine = some ds ∧ 0 < ds ∧
      rows = (lines.drop ds).filterMap econParseRow := by
  cases hidx : lines.findIdx? econDataStartLine with
  | none => rw [econExtract, hidx] at h; simp at h
  | some ds =>
    rw [econExtract, hidx] at h
    simp only [Option.getD_some] at h
    split_ifs at h with h1 h2 <;>
      first
        | exact Option.noConfusion h
        | exact ⟨ds, rfl, Nat.pos_of_ne_zero h1, (Option.some.inj h).symm⟩

/-- C3: every extracted series preserves source order — the parsed pairs,
in output order, are a subsequence of the per-line parse results in
source order — and the value reported as latest is the last element; on
the spec's narrow-CSV example the series is `[2024 ↦ 89.5, 2025 ↦ 91.2]`
and the latest value is 91.2. -/
theorem c3_series_order :
    (∀ lines rows, econExtract lines = some rows →
      ∃ ds, lines.findIdx? econDataStartLine = some ds ∧ 0 < ds ∧
        rows = (lines.drop ds).filterMap econParseRow ∧
        ((rows.map some).Sublist ((lines.drop ds).map econParseRow)) ∧
        econLatest lines = rows.getLast?) ∧
    (∀ lines, ((empParseOnsCsv lines).map some).Sublist (lines.map empParseRow) ∧
      empLatest lines = (empParseOnsCsv lines).getLast?) ∧
    econExtract [pstr ("meta"), pstr ("meta"), pstr ("\"2024\",\"89.5\""),
        pstr ("\"2025\",\"91.2\"")] =
      some [(pstr ("2024"), mkRat 179 2), (pstr ("2025"), mkRat 456 5)] ∧
    econLatest [pstr ("meta"), pstr ("meta"), pstr ("\"2024\",\"89.5\""),
        pstr ("\"2025\",\"91.2\"")] =
      some (pstr ("2025"), mkRat 456 5) := by
  refine ⟨?_, ?_, by decide, by decide⟩
  · intro lines rows h
    obtain ⟨ds, hidx, hpos, hrows⟩ := econExtract_eq_some h
    refine ⟨ds, hidx, hpos, hrows, ?_, ?_⟩
    · rw [hrows]; exact filterMap_map_sublist _ _
    · rw [econLatest, h, Option.some_bind]
  · intro lines
    constructor
    · rw [empParseOnsCsv]
      split_ifs with h1
      · simp
      · exact (filterMap_map_sublist _ _).trans ((List.drop_sublist _ _).map _)
    · rfl

/-- C3, witness: the general order-and-latest property applied to the
spec's narrow-CSV example. -/
theorem c3_series_order_witness :
    ∃ ds, ([pstr ("meta"), pstr ("meta"), pstr ("\"2024\",\"89.5\""),
        pstr ("\"2025\",\"91.2\"")].findIdx? econDataStartLine) = some ds ∧ 0 < ds ∧
      [(pstr ("2024"), mkRat 179 2), (pstr ("2025"), mkRat 456 5)] =
        (([pstr ("meta"), pstr ("meta"), pstr ("\"2024\",\"89.5\""),
          pstr ("\"2025\",\"91.2\"")].drop ds).filterMap econParseRow) ∧
      (([(pstr ("2024"), mkRat 179 2), (pstr ("2025"), mkRat 456 5)].map some).Sublist
        (([pstr ("meta"), pstr ("meta"), pstr ("\"2024\",\"89.5\""),
          pstr ("\"2025\",\"91.2\"")].drop ds).map econParseRow)) ∧
      econLatest [pstr ("meta"), pstr ("meta"), pstr ("\"2024\",\"89.5\""),
          pstr ("\"2025\",\"91.2\"")] =
        [(pstr ("2024"), mkRat 179 2), (pstr ("2025"), mkRat 456 5)].getLast? :=
  c3_series_order.1 _ _ (by decide)

/-- C6: scanning marks `data_start` at the first line satisfying the
data-start test, later non-blank lines that fail to parse are skipped
without aborting extraction, and when no data start or no valid data row
exists the extractor returns an empty result instead of raising. -/
theorem c6_extractor_errors :
    (∀ lines, lines.findIdx? econDataStartLine = none → econExtract lines = none) ∧
    (∀ lines ds, lines.findIdx? econDataStartLine = some ds → 0 < ds →
      econExtract lines =
        (if ((lines.drop ds).filterMap econParseRow).isEmpty then none
          else some ((lines.drop ds).filterMap econParseRow))) ∧
    (∀ l1 l2 junk, (stripWs junk).isEmpty = false → econParseRow junk = none →
      (l1 ++ junk :: l2).filterMap econParseRow = (l1 ++ l2).filterMap econParseRow) ∧
    (∀ lines, lines.findIdx? empDataStartLine = none → empParseOnsCsv lines = []) ∧
    (∀ lines ds, lines.findIdx? empDataStartLine = some ds → 0 < ds →
      empParseOnsCsv lines = (lines.drop ds).filterMap empParseRow) := by
  refine ⟨fun lines h => ?_, fun lines ds h hpos => ?_, fun l1 l2 junk _hb hj => ?_,
    fun lines h => ?_, fun lines ds h hpos => ?_⟩
  · rw [econExtract, h]; rfl
  · rw [econExtract, h]
    simp only [Option.getD_some]
    rw [if_neg (Nat.pos_iff_ne_zero.mp hpos)]
  · simp [List.filterMap_append, List.filterMap_cons, hj]
  · rw [empParseOnsCsv, h]; rfl
  · rw [empParseOnsCsv, h]
    simp only [Option.getD_some]
    rw [if_neg (Nat.pos_iff_ne_zero.mp hpos)]

/-- C6, witness: the data-start characterisation applied to a concrete
two-line CSV whose preamble occupies line 0, plus a concrete failing line
being skipped. -/
theorem c6_extractor_errors_witness :
    econExtract [pstr ("Title"), pstr ("\"2024\",\"89.5\"")] =
      (if (([pstr ("Title"), pstr ("\"2024\",\"89.5\"")].drop 1).filterMap
          econParseRow).isEmpty then none
        else some (([pstr ("Title"), pstr ("\"2024\",\"89.5\"")].drop 1).filterMap
          econParseRow)) ∧
    ([pstr ("\"2024\",\"89.5\"")] ++ pstr ("\"2025\",\"bad\"") ::
        [pstr ("\"2026\",\"91.2\"")]).filterMap econParseRow =
      ([pstr ("\"2024\",\"89.5\"")] ++ [pstr ("\"2026\",\"91.2\"")]).filterMap econParseRow :=
  ⟨c6_extractor_errors.2.1 _ 1 (by decide) (by decide),
   c6_extractor_errors.2.2.1 _ _ _ (by decide) (by decide)⟩

/-! ## Digit-string lemmas for the year-over-year transform -/

/-- Digit characters are digits. -/
theorem digitChar_isDigit {d : ℕ} (h : d < 10) : (digitChar d).isDigit = true := by
  interval_cases d <;> rfl

/-- Code of a digit character. -/
theorem digitChar_toNat {d : ℕ} (h : d < 10) : (digitChar d).toNat = 48 + d := by
  interval_cases d <;> rfl

/-- A digit character is not a space. -/
theorem isDigit_ne_space {c : Char} (h : c.isDigit = true) : c ≠ ' ' := by
  rintro rfl
  exact absurd h (by decide)

/-- Every character of a rendered natural number is a digit. -/
theorem natToDigits_all_digit (n : ℕ) : ∀ c ∈ natToDigits n, c.isDigit = true := by
  induction n using Nat.strong_induction_on with
  | _ n ih =>
    rw [natToDigits]
    by_cases h : n < 10
    · rw [dif_pos h]
      intro c hc
      rw [List.mem_singleton] at hc
      exact hc ▸ digitChar_isDigit h
    · rw [dif_neg h]
      intro c hc
      rcases List.mem_append.mp hc with hc | hc
      · exact ih (n / 10) (Nat.div_lt_self (by omega) (by omega)) c hc
      · rw [List.mem_singleton] at hc
        exact hc ▸ digitChar_isDigit (Nat.mod_lt _ (by omega))

/-- A rendered natural number is never the empty string. -/
theorem natToDigits_ne_nil (n : ℕ) : natToDigits n ≠ [] := by
  rw [natToDigits]
  by_cases h : n < 10
  · rw [dif_pos h]; simp
  · rw [dif_neg h]; simp

/-- A rendered natural number passes the Python `isdigit` test. -/
theorem isDigits_natToDigits (n : ℕ) : isDigits (natToDigits n) = true := by
  unfold isDigits
  rw [Bool.and_eq_true, List.all_eq_true]
  refine ⟨?_, fun c hc => natToDigits_all_digit n c hc⟩
  simp [List.isEmpty_iff, natToDigits_ne_nil]

/-- Folding one more digit onto the accumulated value. -/
theorem natOfDigits_append_digit (a : PStr) (c : Char) :
    natOfDigits (a ++ [c]) = 10 * natOfDigits a + (c.toNat - 48) := by
  simp [natOfDigits, List.foldl_append]

/-- Parsing a rendered natural number returns the number: `int(str(n)) = n`. -/
theorem natOfDigits_natToDigits (n : ℕ) : natOfDigits (natToDigits n) = n := by
  induction n using Nat.strong_induction_on with
  | _ n ih =>
    rw [natToDigits]
    by_cases h : n < 10
    · rw [dif_pos h]
      show natOfDigits [digitChar n] = n
      simp [natOfDigits, digitChar_toNat h]
    · rw [dif_neg h]
      rw [natOfDigits_append_digit,
        ih (n / 10) (Nat.div_lt_self (by omega) (by omega)),
        digitChar_toNat (Nat.mod_lt _ (by omega))]
      omega

/-- Rendering a nonnegative integer agrees with rendering the natural
number. -/
theorem intRepr_ofNat (n : ℕ) : intRepr (n : ℤ) = natToDigits n := by
  unfold intRepr
  rw [if_neg (by omega)]
  norm_num

/-- Rendering `y - 1` for a positive year stays in natural-number form. -/
theorem intRepr_natSubOne {y : ℕ} (hy : 1 ≤ y) :
    intRepr ((y : ℤ) - 1) = natToDigits (y - 1) := by
  rw [show ((y : ℤ) - 1) = ((y - 1 : ℕ) : ℤ) by omega, intRepr_ofNat]

/-- The quarter separator as an explicit character list. -/
theorem pstr_spaceQ : pstr (" Q") = [' ', 'Q'] := rfl

/-- Splitting a space-free string on `' Q'` returns it whole. -/
theorem splitGo_no_space {s : PStr} (h : ∀ c ∈ s, c ≠ ' ') :
    ∀ fuel cur, splitGo ' ' ['Q'] fuel s cur = [cur.reverse ++ s] := by
  induction s with
  | nil => intro fuel cur; cases fuel <;> simp [splitGo]
  | cons c rest ih =>
    intro fuel cur
    have hc : (' ' == c) = false :=
      beq_eq_false_iff_ne.mpr (Ne.symm (h c (List.mem_cons_self c rest)))
    cases fuel with
    | zero => simp [splitGo]
    | succ f =>
      rw [splitGo, if_neg (by simp [frontMatches, hc]),
        ih (fun x hx => h x (List.mem_cons_of_mem c hx)) f (c :: cur)]
      simp

/-- Hitting the `' Q'` separator after a space-free first field cuts the
string exactly there. -/
theorem splitGo_boundary {a : PStr} (ha : ∀ c ∈ a, c ≠ ' ') (b : PStr) :
    ∀ fuel cur, (a ++ ' ' :: 'Q' :: b).length ≤ fuel →
      ∃ f, b.length ≤ f ∧
        splitGo ' ' ['Q'] fuel (a ++ ' ' :: 'Q' :: b) cur =
          (cur.reverse ++ a) :: splitGo ' ' ['Q'] f b [] := by
  induction a with
  | nil =>
    intro fuel cur hf
    simp only [List.nil_append, List.length_cons] at hf ⊢
    cases fuel with
    | zero => omega
    | succ f =>
      refine ⟨f, by omega, ?_⟩
      rw [splitGo, if_pos (by simp [frontMatches])]
      simp
  | cons c a' ih =>
    intro fuel cur hf
    have hc : (' ' == c) = false :=
      beq_eq_false_iff_ne.mpr (Ne.symm (ha c (List.mem_cons_self c a')))
    simp only [List.cons_append, List.length_cons] at hf ⊢
    cases fuel with
    | zero => omega
    | succ f =>
      obtain ⟨f', hf', heq⟩ := ih (fun x hx => ha x (List.mem_cons_of_mem c hx)) f (c :: cur)
        (by omega)
      refine ⟨f', hf', ?_⟩
      rw [splitGo, if_neg (by simp [frontMatches, hc]), heq]
      simp

/-- Splitting `digits ++ ' Q' ++ digits` on `' Q'` yields the two digit
fields. -/
theorem splitOnSeq_quarter {a b : PStr} (ha : ∀ c ∈ a, c ≠ ' ')
    (hb : ∀ c ∈ b, c ≠ ' ') :
    splitOnSeq [' ', 'Q'] (a ++ ' ' :: 'Q' :: b) = [a, b] := by
  show splitGo ' ' ['Q'] (a ++ ' ' :: 'Q' :: b).length (a ++ ' ' :: 'Q' :: b) [] = [a, b]
  obtain ⟨f, _, heq⟩ := splitGo_boundary ha b (a ++ ' ' :: 'Q' :: b).length [] le_rfl
  rw [heq, splitGo_no_space hb]
  simp

/-- A string containing the boundary pattern `' Q'` passes the Python
substring test `' Q' in s`. -/
theorem containsSeq_boundary (a b : PStr) :
    containsSeq [' ', 'Q'] (a ++ ' ' :: 'Q' :: b) = true := by
  induction a with
  | nil => simp [containsSeq, frontMatches]
  | cons c a' ih => simp [containsSeq, ih]

/-- A space-free string fails the Python substring test `' Q' in s`. -/
theorem containsSeq_no_space {s : PStr} (h : ∀ c ∈ s, c ≠ ' ') :
    containsSeq [' ', 'Q'] s = false := by
  induction s with
  | nil => rfl
  | cons c rest ih =>
    have hc : (' ' == c) = false :=
      beq_eq_false_iff_ne.mpr (Ne.symm (h c (List.mem_cons_self c rest)))
    simp [containsSeq, frontMatches, hc,
      ih (fun x hx => h x (List.mem_cons_of_mem c hx))]

/-- No character of a rendered natural number is a space. -/
theorem natToDigits_no_space (n : ℕ) : ∀ c ∈ natToDigits n, c ≠ ' ' :=
  fun c hc => isDigit_ne_space (natToDigits_all_digit n c hc)

/-- The prior key of a canonical quarter label `'YYYY Qn'` is the same
quarter one year earlier, as the claim states. -/
theorem priorKey_quarter (y q : ℕ) (hy : 1 ≤ y) :
    priorKey (natToDigits y ++ ' ' :: 'Q' :: natToDigits q) =
      some (natToDigits (y - 1) ++ ' ' :: 'Q' :: natToDigits q) := by
  unfold priorKey
  rw [pstr_spaceQ, containsSeq_boundary]
  simp only [if_true]
  rw [splitOnSeq_quarter (natToDigits_no_space y) (natToDigits_no_space q)]
  dsimp only
  rw [if_pos (by simp [isDigits_natToDigits])]
  rw [natOfDigits_natToDigits, natOfDigits_natToDigits, intRepr_natSubOne hy, intRepr_ofNat]

/-- The prior key of a canonical bare-year label `'YYYY'` is the previous
year, as the claim states. -/
theorem priorKey_year (y : ℕ) (hy : 1 ≤ y) :
    priorKey (natToDigits y) = some (natToDigits (y - 1)) := by
  unfold priorKey
  rw [pstr_spaceQ, containsSeq_no_space (natToDigits_no_space y)]
  simp only [Bool.false_eq_true, if_false]
  rw [if_pos (isDigits_natToDigits y), natOfDigits_natToDigits, intRepr_natSubOne hy]

/-! ## Dict lemmas for the year-over-year transform -/

/-- A successful dict lookup returns a pair of the list. -/
theorem dlookup_some_mem {rows : List (PStr × ℚ)} {p : PStr} {v : ℚ}
    (h : dlookup rows p = some v) : (p, v) ∈ rows := by
  unfold dlookup at h
  cases hf : rows.reverse.find? (fun r => r.1 == p) with
  | none => rw [hf] at h; simp at h
  | some r =>
    rw [hf] at h
    simp only [Option.map_some', Option.some.injEq] at h
    have hr := List.mem_reverse.mp (List.mem_of_find?_eq_some hf)
    have hp := List.find?_some hf
    rw [beq_iff_eq] at hp
    obtain ⟨r1, r2⟩ := r
    simp only at hp h
    rwa [hp, h] at hr

/-- A key present in the rows makes the dict lookup succeed. -/
theorem dlookup_isSome_of_mem {rows : List (PStr × ℚ)} {p : PStr} {v : ℚ}
    (h : (p, v) ∈ rows) : ∃ w, dlookup rows p = some w := by
  unfold dlookup
  cases hf : rows.reverse.find? (fun r => r.1 == p) with
  | some r => exact ⟨r.2, rfl⟩
  | none =>
    exfalso
    have := List.find?_eq_none.mp hf (p, v) (List.mem_reverse.mpr h)
    simp at this

/-- With nodup keys a key identifies its value. -/
theorem key_unique {rows : List (PStr × ℚ)} (hnd : (rows.map (fun r => r.1)).Nodup)
    {p : PStr} {v w : ℚ} (hv : (p, v) ∈ rows) (hw : (p, w) ∈ rows) : v = w := by
  induction rows with
  | nil => simp at hv
  | cons r rest ih =>
    simp only [List.map_cons, List.nodup_cons] at hnd
    rcases List.mem_cons.mp hv with hv1 | hv1 <;> rcases List.mem_cons.mp hw with hw1 | hw1
    · have := hv1.trans hw1.symm
      simpa using this
    · exfalso
      have h1 : r.1 = p := by rw [← hv1]
      exact (h1 ▸ hnd.1) (List.mem_map.mpr ⟨(p, w), hw1, rfl⟩)
    · exfalso
      have h1 : r.1 = p := by rw [← hw1]
      exact (h1 ▸ hnd.1) (List.mem_map.mpr ⟨(p, v), hv1, rfl⟩)
    · exact ih hnd.2 hv1 hw1

/-- Dict lookup with nodup keys is exactly association membership. -/
theorem dlookup_eq_some_iff {rows : List (PStr × ℚ)}
    (hnd : (rows.map (fun r => r.1)).Nodup) {p : PStr} {v : ℚ} :
    dlookup rows p = some v ↔ (p, v) ∈ rows := by
  refine ⟨dlookup_some_mem, fun h => ?_⟩
  obtain ⟨w, hw⟩ := dlookup_isSome_of_mem h
  rw [hw, key_unique hnd (dlookup_some_mem hw) h]

/-- A value emitted by the year-over-year step keeps its period. -/
theorem yoyStep_fst {s : List (PStr × ℚ)} {p : PStr} {x : PStr × ℚ}
    (h : yoyStep s p = some x) : x.1 = p := by
  unfold yoyStep at h
  cases hpk : priorKey p with
  | none => rw [hpk] at h; exact Option.noConfusion h
  | some pk =>
    rw [hpk] at h
    simp only at h
    cases hc : dlookup s p with
    | none => rw [hc] at h; exact Option.noConfusion h
    | some cur =>
      rw [hc] at h
      simp only at h
      cases hprev : dlookup s pk with
      | none => rw [hprev] at h; exact Option.noConfusion h
      | some prev =>
        rw [hprev] at h
        simp only at h
        by_cases hz : prev ≠ 0
        · rw [if_pos hz] at h
          exact congrArg Prod.fst (Option.some.inj h).symm
        · rw [if_neg hz] at h
          exact Option.noConfusion h

/-- One period's emitted pair, characterised by association membership. -/
theorem yoyStep_eq_some_iff {rows : List (PStr × ℚ)}
    (hnd : (rows.map (fun r => r.1)).Nodup) {p : PStr} {v : ℚ} :
    yoyStep rows p = some (p, v) ↔
      ∃ cur pk prev, (p, cur) ∈ rows ∧ priorKey p = some pk ∧ (pk, prev) ∈ rows ∧
        prev ≠ 0 ∧ v = roundTo2 ((cur - prev) / prev * 100) := by
  constructor
  · intro h
    unfold yoyStep at h
    cases hpk : priorKey p with
    | none => rw [hpk] at h; exact Option.noConfusion h
    | some pk =>
      rw [hpk] at h
      simp only at h
      cases hc : dlookup rows p with
      | none => rw [hc] at h; exact Option.noConfusion h
      | some cur =>
        rw [hc] at h
        simp only at h
        cases hprev : dlookup rows pk with
        | none => rw [hprev] at h; exact Option.noConfusion h
        | some prev =>
          rw [hprev] at h
          simp only at h
          by_cases hz : prev ≠ 0
          · rw [if_pos hz] at h
            have hv := (Option.some.inj h)
            refine ⟨cur, pk, prev, dlookup_some_mem hc, rfl, dlookup_some_mem hprev, hz, ?_⟩
            have := congrArg Prod.snd hv
            simpa using this.symm
          · rw [if_neg hz] at h
            exact Option.noConfusion h
  · rintro ⟨cur, pk, prev, hcur, hpk, hprev, hz, rfl⟩
    unfold yoyStep
    rw [hpk]
    dsimp only
    rw [(dlookup_eq_some_iff hnd).mpr hcur]
    dsimp only
    rw [(dlookup_eq_some_iff hnd).mpr hprev]
    dsimp only
    rw [if_pos hz]

/-- C4: the year-over-year transform is total, its output is sorted
ascending by period, it contains exactly the periods whose prior key
resolves to a non-zero value of the input series — each mapped to
`round(((cur - prev) / prev) * 100, 2)` — and a canonical quarter or
bare-year label resolves to the same period one year earlier. -/
theorem c4_yoy_transform (rows : List (PStr × ℚ))
    (hstrip : ∀ r ∈ rows, stripWs r.1 = r.1)
    (hnd : (rows.map (fun r => r.1)).Nodup) :
    ((computeYoyPctChange rows).Pairwise (fun a b => a.1 ≤ b.1)) ∧
    (∀ p v, (p, v) ∈ computeYoyPctChange rows ↔
      ∃ cur pk prev, (p, cur) ∈ rows ∧ priorKey p = some pk ∧ (pk, prev) ∈ rows ∧
        prev ≠ 0 ∧ v = roundTo2 ((cur - prev) / prev * 100)) ∧
    (∀ y q : ℕ, 1 ≤ y → priorKey (natToDigits y ++ ' ' :: 'Q' :: natToDigits q) =
      some (natToDigits (y - 1) ++ ' ' :: 'Q' :: natToDigits q)) ∧
    (∀ y : ℕ, 1 ≤ y → priorKey (natToDigits y) = some (natToDigits (y - 1))) := by
  have hss : rows.map (fun r => (stripWs r.1, r.2)) = rows := by
    have h1 : rows.map (fun r => (stripWs r.1, r.2)) = rows.map id :=
      List.map_congr_left (fun r hr => by rw [hstrip r hr]; simp)
    rw [h1, List.map_id]
  have hmain : computeYoyPctChange rows =
      (List.insertionSort (fun a b => a ≤ b)
        ((rows.map (fun r => r.1)).dedup)).filterMap (yoyStep rows) := by
    simp only [computeYoyPctChange, hss]
  refine ⟨?_, ?_, fun y q hy => priorKey_quarter y q hy, fun y hy => priorKey_year y hy⟩
  · rw [hmain, List.pairwise_filterMap]
    have hsorted : List.Pairwise (fun a b : PStr => a ≤ b)
        (List.insertionSort (fun a b => a ≤ b) ((rows.map (fun r => r.1)).dedup)) :=
      List.sorted_insertionSort _ _
    refine hsorted.imp ?_
    intro a b hab x hx y hy
    rw [yoyStep_fst (Option.mem_def.mp hx), yoyStep_fst (Option.mem_def.mp hy)]
    exact hab
  · intro p v
    rw [hmain, List.mem_filterMap]
    constructor
    · rintro ⟨p', _, hstep⟩
      have hp : p' = p := by simpa using (yoyStep_fst hstep).symm
      subst hp
      exact (yoyStep_eq_some_iff hnd).mp hstep
    · intro hex
      refine ⟨p, ?_, (yoyStep_eq_some_iff hnd).mpr hex⟩
      obtain ⟨cur, pk, prev, hcur, -, -, -, -⟩ := hex
      rw [(List.perm_insertionSort _ _).mem_iff, List.mem_dedup]
      exact List.mem_map.mpr ⟨(p, cur), hcur, rfl⟩

/-- C4, witness: the transform theorem applied to the spec's two-point
quarterly series (2023 Q1 value 100, 2024 Q1 value 110). -/
theorem c4_yoy_transform_witness :
    ((computeYoyPctChange [(pstr ("2023 Q1"), 100), (pstr ("2024 Q1"), 110)]).Pairwise
      (fun a b => a.1 ≤ b.1)) ∧
    (∀ p v, ((p, v) ∈ computeYoyPctChange [(pstr ("2023 Q1"), 100), (pstr ("2024 Q1"), 110)] ↔
      ∃ cur pk prev, (p, cur) ∈ [(pstr ("2023 Q1"), 100), (pstr ("2024 Q1"), (110 : ℚ))] ∧
        priorKey p = some pk ∧
        (pk, prev) ∈ [(pstr ("2023 Q1"), 100), (pstr ("2024 Q1"), (110 : ℚ))] ∧
        prev ≠ 0 ∧ v = roundTo2 ((cur - prev) / prev * 100))) ∧
    (∀ y q : ℕ, 1 ≤ y → priorKey (natToDigits y ++ ' ' :: 'Q' :: natToDigits q) =
      some (natToDigits (y - 1) ++ ' ' :: 'Q' :: natToDigits q)) ∧
    (∀ y : ℕ, 1 ≤ y → priorKey (natToDigits y) = some (natToDigits (y - 1))) :=
  c4_yoy_transform _ (by decide) (by decide)

end UKRag
